import Mathlib

/-!
# Verification of the two-party chat backend

A shallow embedding of the message-routing core of the chat backend
(`src/socket/socket.handler.ts`, `src/controllers/message.controller.ts`,
`src/controllers/conversation.controller.ts`), together with proofs about
its routing, lifecycle and sanitization behaviour.

Timestamps are modelled as `Nat` (`now` is passed explicitly where the code
calls `new Date()`); user / message / conversation ids are `Nat`.  The
TypeORM repositories are modelled as lists of rows: `save` on an entity that
already has an id replaces every row with that id, `save` on a freshly
`create`d entity appends a row with the next free id.  Socket.IO rooms
(`user_<id>`) are modelled by the target user's id; `socket.emit` on the
caller's socket is an emission targeted at the caller's own id.
-/

namespace Chat

/-- One entry of a message's edit history, as pushed by
`handleUpdateMessage` / `updateMessage`: `{ content, editedAt }`. -/
structure EditEntry where
  content : String
  editedAt : Nat
deriving Repr, DecidableEq

/-- The `Message` entity (`src/entities/Message.ts`). -/
structure Message where
  id : Nat
  content : String
  originalContent : String
  editHistory : List EditEntry
  senderId : Nat
  receiverId : Nat
  conversationId : Nat
  isRead : Bool
  isDelivered : Bool
  isDeleted : Bool
  deletedAt : Option Nat
  isEdited : Bool
  editedAt : Option Nat
  createdAt : Nat
deriving Repr, DecidableEq

/-- The `Conversation` entity (`src/entities/Conversation.ts`). -/
structure Conversation where
  id : Nat
  user1Id : Nat
  user2Id : Nat
  createdAt : Nat
  updatedAt : Nat
deriving Repr, DecidableEq

/-- A message as produced by `sanitizeMessage`: the destructuring
`const { originalContent, editHistory, ...sanitized } = message` keeps every
field except `originalContent` and `editHistory`. -/
structure SanitizedMessage where
  id : Nat
  content : String
  senderId : Nat
  receiverId : Nat
  conversationId : Nat
  isRead : Bool
  isDelivered : Bool
  isDeleted : Bool
  deletedAt : Option Nat
  isEdited : Bool
  editedAt : Option Nat
  createdAt : Nat
deriving Repr, DecidableEq

/-- `sanitizeMessage` (identical in `socket.handler.ts`,
`message.controller.ts` and `conversation.controller.ts`): drop
`originalContent` and `editHistory`, keep everything else. -/
def sanitizeMessage (m : Message) : SanitizedMessage :=
  { id := m.id
    content := m.content
    senderId := m.senderId
    receiverId := m.receiverId
    conversationId := m.conversationId
    isRead := m.isRead
    isDelivered := m.isDelivered
    isDeleted := m.isDeleted
    deletedAt := m.deletedAt
    isEdited := m.isEdited
    editedAt := m.editedAt
    createdAt := m.createdAt }

/-- State of the backend: the user table (only ids matter to the routing
core), the conversation and message tables, the `userSockets` map's key set
(which users currently have a live socket), and the next auto-generated
primary keys. -/
structure DB where
  users : List Nat
  conversations : List Conversation
  messages : List Message
  connected : List Nat
  nextConversationId : Nat
  nextMessageId : Nat
deriving Repr, DecidableEq

/-- An outbound real-time event, with the payload shapes used by
`socket.handler.ts`. -/
inductive Event where
  | newMessage (m : SanitizedMessage)
  | messageDelivered (messageId conversationId : Nat)
  | messageRead (messageId conversationId : Nat)
  | messageUpdated (m : SanitizedMessage)
  | messageDeleted (m : SanitizedMessage)
  | typing (userId conversationId : Nat)
  | errorEvent (msg : String)
deriving Repr, DecidableEq

/-- An emission: an event delivered to the personal room (`user_<target>`)
or direct socket of user `target`. -/
structure Emission where
  target : Nat
  event : Event
deriving Repr, DecidableEq

/-- JavaScript's `String.prototype.trim()`: strip leading and trailing
whitespace.  (Defined over the character list so it is executable by
`decide`; Lean's builtin `String.trim` is extensionally the same but does
not reduce definitionally.) -/
def strTrim (s : String) : String :=
  ⟨((s.data.dropWhile Char.isWhitespace).reverse.dropWhile
      Char.isWhitespace).reverse⟩

/-- `repository.save` on a message that already has an id: replace every
stored row carrying that id. -/
def saveMessage (msgs : List Message) (m : Message) : List Message :=
  msgs.map (fun x => if x.id = m.id then m else x)

/-- `repository.save` on a conversation that already has an id. -/
def saveConversation (convs : List Conversation) (c : Conversation) :
    List Conversation :=
  convs.map (fun x => if x.id = c.id then c else x)

/-- `messageRepository.findOne({ where: { id } })`. -/
def findMessage (msgs : List Message) (i : Nat) : Option Message :=
  msgs.find? (fun m => m.id = i)

/-- `conversationRepository.findOne({ where: { id } })`. -/
def findConversationById (convs : List Conversation) (i : Nat) :
    Option Conversation :=
  convs.find? (fun c => c.id = i)

/-- The two-branch `where` clause used by both `handleSendMessage` and
`createConversation` to look a conversation up in either stored order:
`[{ user1Id: a, user2Id: b }, { user1Id: b, user2Id: a }]`. -/
def findConversationByPair (convs : List Conversation) (a b : Nat) :
    Option Conversation :=
  convs.find? (fun c =>
    (c.user1Id = a ∧ c.user2Id = b) ∨ (c.user1Id = b ∧ c.user2Id = a))

/-- The find-or-create block shared verbatim by
`socket.handler.ts:handleSendMessage` (lines 113–127) and
`conversation.controller.ts:createConversation` (lines 126–141): look the
pair up in either order, otherwise `create({ user1Id: a, user2Id: b })` and
`save`. -/
def findOrCreateConversation (db : DB) (a b : Nat) (now : Nat) :
    Conversation × DB :=
  match findConversationByPair db.conversations a b with
  | some c => (c, db)
  | none =>
      let c : Conversation :=
        { id := db.nextConversationId, user1Id := a, user2Id := b
          createdAt := now, updatedAt := now }
      (c, { db with
              conversations := db.conversations ++ [c]
              nextConversationId := db.nextConversationId + 1 })

/-- `handleSendMessage` (`socket.handler.ts` lines 95–187). -/
def handleSendMessage (db : DB) (senderId receiverId : Nat)
    (content : String) (now : Nat) : DB × List Emission :=
  if senderId = receiverId then
    (db, [⟨senderId, .errorEvent "Cannot send message to yourself"⟩])
  else if receiverId ∉ db.users then
    (db, [⟨senderId, .errorEvent "Receiver not found"⟩])
  else
    let resolved := findOrCreateConversation db senderId receiverId now
    let conv := resolved.1
    let db1 := resolved.2
    if conv.user1Id ≠ senderId ∧ conv.user2Id ≠ senderId then
      (db1, [⟨senderId, .errorEvent "Invalid conversation access"⟩])
    else
      let msg : Message :=
        { id := db1.nextMessageId
          content := content
          originalContent := content
          editHistory := []
          senderId := senderId
          receiverId := receiverId
          conversationId := conv.id
          isRead := false
          isDelivered := false
          isDeleted := false
          deletedAt := none
          isEdited := false
          editedAt := none
          createdAt := now }
      let db2 := { db1 with
                     messages := db1.messages ++ [msg]
                     nextMessageId := db1.nextMessageId + 1 }
      let conv' := { conv with updatedAt := now }
      let db3 := { db2 with
                     conversations := saveConversation db2.conversations conv' }
      let echo : Emission := ⟨senderId, .newMessage (sanitizeMessage msg)⟩
      if receiverId ∈ db3.connected then
        let msg' := { msg with isDelivered := true }
        let db4 := { db3 with messages := saveMessage db3.messages msg' }
        (db4,
         [echo,
          ⟨receiverId, .newMessage (sanitizeMessage msg')⟩,
          ⟨senderId, .messageDelivered msg.id conv.id⟩])
      else
        (db3, [echo])

/-- Sets `isRead := true` and `isDelivered := true`, as both branches of
`handleMarkAsRead` do. -/
def markRead (m : Message) : Message :=
  { m with isRead := true, isDelivered := true }

/-- The filter of the conversation branch of `handleMarkAsRead`:
`{ conversationId, receiverId: userId, isRead: false }`. -/
def unreadFor (cid uid : Nat) (m : Message) : Bool :=
  m.conversationId = cid ∧ m.receiverId = uid ∧ m.isRead = false

/-- The `for (const message of messages)` loop of the conversation branch of
`handleMarkAsRead`: mark each fetched message read and delivered, save it,
and emit `messageRead` to that message's sender's room. -/
def markAllLoop (msgs : List Message) (store : List Message) (cid : Nat) :
    List Message × List Emission :=
  match msgs with
  | [] => (store, [])
  | m :: rest =>
      let store1 := saveMessage store (markRead m)
      let r := markAllLoop rest store1 cid
      (r.1, ⟨m.senderId, .messageRead m.id cid⟩ :: r.2)

/-- Payload of the inbound `markAsRead` event:
`{ messageId, conversationId? }`. -/
structure MarkAsReadData where
  messageId : Nat
  conversationId : Option Nat
deriving Repr, DecidableEq

/-- `handleMarkAsRead` (`socket.handler.ts` lines 189–250): conversation
form marks every unread message addressed to the caller; single-message
form silently no-ops when the message is missing or the caller is not the
receiver. -/
def handleMarkAsRead (db : DB) (userId : Nat) (data : MarkAsReadData) :
    DB × List Emission :=
  match data.conversationId with
  | some cid =>
      let msgs := db.messages.filter (unreadFor cid userId)
      let r := markAllLoop msgs db.messages cid
      ({ db with messages := r.1 }, r.2)
  | none =>
      match findMessage db.messages data.messageId with
      | none => (db, [])
      | some m =>
          if m.receiverId ≠ userId then (db, [])
          else
            ({ db with messages := saveMessage db.messages (markRead m) },
             [⟨m.senderId, .messageRead m.id m.conversationId⟩])

/-- `handleTyping` (`socket.handler.ts` lines 252–284): silently ignore a
missing conversation or a non-participant caller, otherwise emit `typing`
to the other participant's room only. -/
def handleTyping (db : DB) (userId conversationId : Nat) :
    DB × List Emission :=
  match findConversationById db.conversations conversationId with
  | none => (db, [])
  | some c =>
      if c.user1Id ≠ userId ∧ c.user2Id ≠ userId then (db, [])
      else
        let otherUserId := if c.user1Id = userId then c.user2Id else c.user1Id
        (db, [⟨otherUserId, .typing userId conversationId⟩])

/-- `handleUpdateMessage` (`socket.handler.ts` lines 332–390).  The guard
`!content || !content.trim()` is `strTrim content = ""` on Lean strings. -/
def handleUpdateMessage (db : DB) (userId messageId : Nat)
    (content : String) (now : Nat) : DB × List Emission :=
  if strTrim content = "" then
    (db, [⟨userId, .errorEvent "Content is required"⟩])
  else
    match findMessage db.messages messageId with
    | none => (db, [⟨userId, .errorEvent "Message not found"⟩])
    | some m =>
        if m.senderId ≠ userId then
          (db, [⟨userId, .errorEvent "Access denied"⟩])
        else if m.isDeleted then
          (db, [⟨userId, .errorEvent "Cannot update deleted message"⟩])
        else
          let m' := { m with
                        editHistory := m.editHistory ++ [⟨m.content, now⟩]
                        content := strTrim content
                        isEdited := true
                        editedAt := some now }
          ({ db with messages := saveMessage db.messages m' },
           [⟨userId, .messageUpdated (sanitizeMessage m')⟩,
            ⟨m.receiverId, .messageUpdated (sanitizeMessage m')⟩])

/-- `handleDeleteMessage` (`socket.handler.ts` lines 392–432): soft delete
with no check of `isDeleted`, always overwriting `deletedAt` and the
placeholder content. -/
def handleDeleteMessage (db : DB) (userId messageId : Nat) (now : Nat) :
    DB × List Emission :=
  match findMessage db.messages messageId with
  | none => (db, [⟨userId, .errorEvent "Message not found"⟩])
  | some m =>
      if m.senderId ≠ userId then
        (db, [⟨userId, .errorEvent "Access denied"⟩])
      else
        let m' := { m with
                      isDeleted := true
                      deletedAt := some now
                      content := "This message was deleted" }
        ({ db with messages := saveMessage db.messages m' },
         [⟨userId, .messageDeleted (sanitizeMessage m')⟩,
          ⟨m.receiverId, .messageDeleted (sanitizeMessage m')⟩])

/-- The five inbound message-related client events
(`sendMessage`, `markAsRead`, `typing`, `updateMessage`, `deleteMessage`). -/
inductive ClientEvent where
  | sendMessage (receiverId : Nat) (content : String)
  | markAsRead (data : MarkAsReadData)
  | typing (conversationId : Nat)
  | updateMessage (messageId : Nat) (content : String)
  | deleteMessage (messageId : Nat)
deriving Repr, DecidableEq

/-- The event dispatch table registered in `initializeSocketEvents`:
route each inbound event of the authenticated user `userId` to its
handler. -/
def handleEvent (db : DB) (userId : Nat) (ev : ClientEvent) (now : Nat) :
    DB × List Emission :=
  match ev with
  | .sendMessage receiverId content =>
      handleSendMessage db userId receiverId content now
  | .markAsRead data => handleMarkAsRead db userId data
  | .typing conversationId => handleTyping db userId conversationId
  | .updateMessage messageId content =>
      handleUpdateMessage db userId messageId content now
  | .deleteMessage messageId => handleDeleteMessage db userId messageId now

/-- The routing contract of the claim "a message is never emitted to any
channel other than its sender's or receiver's": an emission is acceptable
in state `db` when its target is a legitimate party of the event's subject
— for payloads carrying a (sanitized) message, the payload's own sender or
receiver; for `messageDelivered` / `messageRead` notices, the sender or
receiver of the stored message with the referenced id; for `typing`, a
participant of the referenced conversation.  `error` events are direct
replies to the calling socket and carry no message. -/
def emissionOk (db : DB) (e : Emission) : Prop :=
  match e.event with
  | .newMessage sm => e.target = sm.senderId ∨ e.target = sm.receiverId
  | .messageUpdated sm => e.target = sm.senderId ∨ e.target = sm.receiverId
  | .messageDeleted sm => e.target = sm.senderId ∨ e.target = sm.receiverId
  | .messageDelivered mid _ =>
      ∃ m ∈ db.messages, m.id = mid ∧
        (e.target = m.senderId ∨ e.target = m.receiverId)
  | .messageRead mid _ =>
      ∃ m ∈ db.messages, m.id = mid ∧
        (e.target = m.senderId ∨ e.target = m.receiverId)
  | .typing _ cid =>
      ∃ c ∈ db.conversations, c.id = cid ∧
        (e.target = c.user1Id ∨ e.target = c.user2Id)
  | .errorEvent _ => True

/-- Result of a REST handler: either a JSON body of type `α` or an HTTP
error status with its message body. -/
inductive RestResult (α : Type) where
  | ok (value : α)
  | error (status : Nat) (message : String)
deriving Repr, DecidableEq

/-- `message.controller.ts:markAsRead` (lines 60–88): only the receiver may
mark a message read; sets `isRead := true` only (it does not touch
`isDelivered`). -/
def restMarkAsRead (db : DB) (userId messageId : Nat) :
    DB × RestResult String :=
  match findMessage db.messages messageId with
  | none => (db, .error 404 "Message not found")
  | some m =>
      if m.receiverId ≠ userId then (db, .error 403 "Access denied")
      else
        ({ db with messages := saveMessage db.messages { m with isRead := true } },
         .ok "Message marked as read")

/-- `message.controller.ts:updateMessage` (lines 90–141): same lifecycle
checks and effect as the socket handler, responding with the sanitized
updated message. -/
def restUpdateMessage (db : DB) (userId messageId : Nat)
    (content : String) (now : Nat) : DB × RestResult SanitizedMessage :=
  if strTrim content = "" then (db, .error 400 "Content is required")
  else
    match findMessage db.messages messageId with
    | none => (db, .error 404 "Message not found")
    | some m =>
        if m.senderId ≠ userId then (db, .error 403 "Access denied")
        else if m.isDeleted then
          (db, .error 400 "Cannot update deleted message")
        else
          let m' := { m with
                        editHistory := m.editHistory ++ [⟨m.content, now⟩]
                        content := strTrim content
                        isEdited := true
                        editedAt := some now }
          ({ db with messages := saveMessage db.messages m' },
           .ok (sanitizeMessage m'))

/-- `message.controller.ts:deleteMessage` (lines 143–174): soft delete, no
`isDeleted` check, identical effect to the socket handler. -/
def restDeleteMessage (db : DB) (userId messageId : Nat) (now : Nat) :
    DB × RestResult String :=
  match findMessage db.messages messageId with
  | none => (db, .error 404 "Message not found")
  | some m =>
      if m.senderId ≠ userId then (db, .error 403 "Access denied")
      else
        let m' := { m with
                      isDeleted := true
                      deletedAt := some now
                      content := "This message was deleted" }
        ({ db with messages := saveMessage db.messages m' },
         .ok "Message deleted successfully")

/-- The JSON body returned by `getMessageHistory`. -/
structure MessageHistory where
  originalContent : String
  currentContent : String
  editHistory : List EditEntry
  isDeleted : Bool
  deletedAt : Option Nat
  isEdited : Bool
  editedAt : Option Nat
deriving Repr, DecidableEq

/-- `message.controller.ts:getMessageHistory` (lines 176–211): sender or
receiver only; returns the backup fields in full. -/
def getMessageHistory (db : DB) (userId messageId : Nat) :
    RestResult MessageHistory :=
  match findMessage db.messages messageId with
  | none => .error 404 "Message not found"
  | some m =>
      if m.senderId ≠ userId ∧ m.receiverId ≠ userId then
        .error 403 "Access denied"
      else
        .ok { originalContent := m.originalContent
              currentContent := m.content
              editHistory := m.editHistory
              isDeleted := m.isDeleted
              deletedAt := m.deletedAt
              isEdited := m.isEdited
              editedAt := m.editedAt }

/-- The `where` clause of `getMessages`: messages of the conversation in
which the requesting user is sender or receiver. -/
def messageOfUserInConv (cid uid : Nat) (m : Message) : Bool :=
  m.conversationId = cid ∧ (m.senderId = uid ∨ m.receiverId = uid)

/-- Stable insertion step for `ORDER BY message.createdAt DESC`. -/
def insertByCreatedAtDesc (m : Message) : List Message → List Message
  | [] => [m]
  | x :: xs =>
      if x.createdAt ≥ m.createdAt then x :: insertByCreatedAtDesc m xs
      else m :: x :: xs

/-- `ORDER BY message.createdAt DESC` as a stable insertion sort. -/
def sortByCreatedAtDesc : List Message → List Message
  | [] => []
  | m :: rest => insertByCreatedAtDesc m (sortByCreatedAtDesc rest)

/-- `message.controller.ts:getMessages` (lines 20–58): participant check on
the conversation, then the filtered, ordered, paginated message list,
sanitized row by row. -/
def restGetMessages (db : DB) (userId conversationId page limit : Nat) :
    RestResult (List SanitizedMessage) :=
  match findConversationById db.conversations conversationId with
  | none => .error 404 "Conversation not found"
  | some c =>
      if c.user1Id ≠ userId ∧ c.user2Id ≠ userId then
        .error 403 "Access denied"
      else
        let rows := sortByCreatedAtDesc
          (db.messages.filter (messageOfUserInConv conversationId userId))
        .ok (((rows.drop ((page - 1) * limit)).take limit).map sanitizeMessage)

/-- The filter of the unread-count subquery of `getConversations`:
`receiverId = userId AND isRead = false` within the conversation. -/
def unreadCount (db : DB) (uid cid : Nat) : Nat :=
  (db.messages.filter (unreadFor cid uid)).length

/-- `SELECT MAX(id) ... GROUP BY conversationId` restricted to one
conversation: the row with the greatest id. -/
def maxById (msgs : List Message) : Option Message :=
  msgs.foldl
    (fun acc m =>
      match acc with
      | none => some m
      | some x => if m.id > x.id then some m else some x)
    none

/-- The last-message subquery of `getConversations`: among the messages of
the conversation in which the user is sender or receiver, the one with the
maximal id. -/
def lastMessageFor (db : DB) (uid cid : Nat) : Option Message :=
  maxById (db.messages.filter (messageOfUserInConv cid uid))

/-- One row of the `getConversations` response.  The joined participant
profile is reduced to the participant's id (profile fields live on the user
table and carry no message data). -/
structure ConversationPreview where
  id : Nat
  participantId : Nat
  lastMessage : Option SanitizedMessage
  unreadCount : Nat
  updatedAt : Nat
deriving Repr, DecidableEq

/-- One entry of the `getConversations` map (lines 69–96 of
`conversation.controller.ts`): compute the participant, the sanitized last
message and the unread count; drop the row (`return null` / the
`participant !== undefined` filter) when the last message does not involve
both participants or the participant user does not exist. -/
def conversationPreview (db : DB) (uid : Nat) (c : Conversation) :
    Option ConversationPreview :=
  let participantId := if c.user1Id = uid then c.user2Id else c.user1Id
  if participantId ∉ db.users then none
  else
    match lastMessageFor db uid c.id with
    | some lm =>
        if (lm.senderId = uid ∨ lm.receiverId = uid) ∧
           (lm.senderId = participantId ∨ lm.receiverId = participantId) then
          some { id := c.id, participantId := participantId
                 lastMessage := some (sanitizeMessage lm)
                 unreadCount := unreadCount db uid c.id
                 updatedAt := c.updatedAt }
        else none
    | none =>
        some { id := c.id, participantId := participantId
               lastMessage := none
               unreadCount := unreadCount db uid c.id
               updatedAt := c.updatedAt }

/-- Stable insertion step for `ORDER BY updatedAt DESC` on conversations. -/
def insertByUpdatedAtDesc (c : Conversation) :
    List Conversation → List Conversation
  | [] => [c]
  | x :: xs =>
      if x.updatedAt ≥ c.updatedAt then x :: insertByUpdatedAtDesc c xs
      else c :: x :: xs

/-- `order: { updatedAt: 'DESC' }` as a stable insertion sort. -/
def sortByUpdatedAtDesc : List Conversation → List Conversation
  | [] => []
  | c :: rest => insertByUpdatedAtDesc c (sortByUpdatedAtDesc rest)

/-- `conversation.controller.ts:getConversations` (lines 20–103): the
user's conversations, newest first, each with participant, sanitized last
message and unread count. -/
def getConversationsPreviews (db : DB) (uid : Nat) :
    List ConversationPreview :=
  (sortByUpdatedAtDesc
      (db.conversations.filter (fun c => c.user1Id = uid ∨ c.user2Id = uid))).filterMap
    (conversationPreview db uid)

/-- `conversation.controller.ts:createConversation` (lines 105–154).  The
JavaScript guard `if (!participantId)` is falsy exactly on `0` for a
numeric id, so the model rejects `participantId = 0`; the JSON response is
reduced to the conversation's id. -/
def restCreateConversation (db : DB) (userId participantId : Nat)
    (now : Nat) : DB × RestResult Nat :=
  if participantId = 0 then (db, .error 400 "Participant ID is required")
  else if participantId ∉ db.users then (db, .error 404 "User not found")
  else
    let resolved := findOrCreateConversation db userId participantId now
    (resolved.2, .ok resolved.1.id)

/-- Two messages differ only in the backup fields: every field except
`originalContent` and `editHistory` agrees.  This is the indistinguishability
relation of the sanitization contract — outputs that are stripped of the
backup fields cannot tell two `relMsg`-related messages apart. -/
def relMsg (m1 m2 : Message) : Prop :=
  m1.id = m2.id ∧ m1.content = m2.content ∧
  m1.senderId = m2.senderId ∧ m1.receiverId = m2.receiverId ∧
  m1.conversationId = m2.conversationId ∧ m1.isRead = m2.isRead ∧
  m1.isDelivered = m2.isDelivered ∧ m1.isDeleted = m2.isDeleted ∧
  m1.deletedAt = m2.deletedAt ∧ m1.isEdited = m2.isEdited ∧
  m1.editedAt = m2.editedAt ∧ m1.createdAt = m2.createdAt

/-- Two states whose message tables are pointwise `relMsg`-related and that
agree everywhere else: they differ only in `originalContent` / `editHistory`
values of stored messages. -/
def relDB (db1 db2 : DB) : Prop :=
  db1.users = db2.users ∧ db1.conversations = db2.conversations ∧
  db1.connected = db2.connected ∧
  db1.nextConversationId = db2.nextConversationId ∧
  db1.nextMessageId = db2.nextMessageId ∧
  List.Forall₂ relMsg db1.messages db2.messages

/-! ## Concrete fixtures used by witnesses and counterexamples -/

/-- A pending (undelivered, unread) message from user 1 to user 2. -/
def sampleMessage : Message :=
  { id := 1, content := "hi", originalContent := "hi", editHistory := []
    senderId := 1, receiverId := 2, conversationId := 1
    isRead := false, isDelivered := false, isDeleted := false
    deletedAt := none, isEdited := false, editedAt := none, createdAt := 0 }

/-- A sample state: users 1 and 2, their conversation, and one pending
message from 1 to 2; nobody connected. -/
def sampleDB : DB :=
  { users := [1, 2]
    conversations := [{ id := 1, user1Id := 1, user2Id := 2
                        createdAt := 0, updatedAt := 0 }]
    messages := [sampleMessage]
    connected := []
    nextConversationId := 2
    nextMessageId := 2 }

/-- `sampleMessage` already soft-deleted at time 3. -/
def sampleDeletedMessage : Message :=
  { sampleMessage with
      isDeleted := true, deletedAt := some 3
      content := "This message was deleted" }

/-- `sampleDB` with its message already soft-deleted. -/
def sampleDeletedDB : DB :=
  { sampleDB with messages := [sampleDeletedMessage] }

/-- `sampleMessage` with a first secret backup: original content
`"secret-a"` and one history entry. -/
def secretMessageA : Message :=
  { sampleMessage with
      originalContent := "secret-a"
      editHistory := [⟨"secret-a", 1⟩] }

/-- `sampleMessage` with a different secret backup. -/
def secretMessageB : Message :=
  { sampleMessage with originalContent := "secret-b" }

/-- `sampleDB` holding `secretMessageA`. -/
def secretDBA : DB := { sampleDB with messages := [secretMessageA] }

/-- `sampleDB` holding `secretMessageB`: related to `secretDBA` by `relDB`
(the two states differ only in backup fields). -/
def secretDBB : DB := { sampleDB with messages := [secretMessageB] }

/-! ## Basic lemmas about the repository model -/

theorem saveMessage_length (l : List Message) (m : Message) :
    (saveMessage l m).length = l.length := by
  simp [saveMessage]

theorem mem_saveMessage_self {l : List Message} {x : Message} (m : Message)
    (hx : x ∈ l) (hid : x.id = m.id) : m ∈ saveMessage l m := by
  unfold saveMessage
  have hmem := List.mem_map_of_mem (fun y => if y.id = m.id then m else y) hx
  simpa [hid] using hmem

theorem find?_saveMessage {l : List Message} {i : Nat} {m : Message}
    (hm : m.id = i) (h : ∃ x ∈ l, x.id = i) :
    (saveMessage l m).find? (fun x => x.id = i) = some m := by
  induction l with
  | nil => simp at h
  | cons a t ih =>
      rcases h with ⟨x, hx, hxi⟩
      by_cases ha : a.id = i
      · have : a.id = m.id := by rw [ha, hm]
        simp [saveMessage, List.find?, this, hm]
      · have hx' : x ∈ t := by
          rcases List.mem_cons.mp hx with h1 | h1
          · exact absurd (h1 ▸ hxi) ha
          · exact h1
        have ham : ¬ a.id = m.id := by rw [hm]; exact ha
        have := ih ⟨x, hx', hxi⟩
        simpa [saveMessage, List.find?, ham, ha] using this

theorem findMessage_mem {l : List Message} {i : Nat} {m : Message}
    (h : findMessage l i = some m) : m ∈ l :=
  List.mem_of_find?_eq_some h

theorem findMessage_id {l : List Message} {i : Nat} {m : Message}
    (h : findMessage l i = some m) : m.id = i := by
  have := List.find?_some h
  simpa using this

theorem findMessage_saveMessage {l : List Message} {i : Nat} {m m' : Message}
    (h : findMessage l i = some m) (hid : m'.id = i) :
    findMessage (saveMessage l m') i = some m' :=
  find?_saveMessage hid ⟨m, findMessage_mem h, findMessage_id h⟩

/-! ## C2: conversation resolution is symmetric in the user pair -/

theorem pairPredicate_symm (a b : Nat) (c : Conversation) :
    (decide ((c.user1Id = b ∧ c.user2Id = a) ∨ (c.user1Id = a ∧ c.user2Id = b)))
      = (decide ((c.user1Id = a ∧ c.user2Id = b) ∨ (c.user1Id = b ∧ c.user2Id = a))) := by
  apply decide_eq_decide.mpr
  tauto

theorem findConversationByPair_symm (convs : List Conversation) (a b : Nat) :
    findConversationByPair convs b a = findConversationByPair convs a b := by
  unfold findConversationByPair
  congr 1
  funext c
  exact pairPredicate_symm a b c

/-- C2: resolving the conversation for the pair `(a, b)` and then for
`(b, a)` yields the same conversation id, and the second resolution
changes nothing: a conversation stored in either participant order is
found rather than a new one created. -/
theorem resolve_pair_symmetric (db : DB) (a b now1 now2 : Nat)
    (_hab : a ≠ b) :
    ((findOrCreateConversation (findOrCreateConversation db a b now1).2
        b a now2).1).id = ((findOrCreateConversation db a b now1).1).id ∧
    (findOrCreateConversation (findOrCreateConversation db a b now1).2
        b a now2).2 = (findOrCreateConversation db a b now1).2 := by
  unfold findOrCreateConversation
  cases h : findConversationByPair db.conversations a b with
  | some c =>
      have h' : findConversationByPair db.conversations b a = some c := by
        rw [findConversationByPair_symm]; exact h
      simp [h, h']
  | none =>
      have h' : findConversationByPair db.conversations b a = none := by
        rw [findConversationByPair_symm]; exact h
      set c0 : Conversation :=
        { id := db.nextConversationId, user1Id := a, user2Id := b
          createdAt := now1, updatedAt := now1 } with hc0
      have hfind : findConversationByPair (db.conversations ++ [c0]) b a
          = some c0 := by
        unfold findConversationByPair at h' ⊢
        rw [List.find?_append, h']
        simp [hc0]
      simp [h, hfind]

/-- Witness for `resolve_pair_symmetric` at a concrete database. -/
theorem resolve_pair_symmetric_witness :
    (1 : Nat) ≠ 2 ∧
    ((findOrCreateConversation
        (findOrCreateConversation
          { users := [1, 2], conversations := [], messages := [],
            connected := [], nextConversationId := 1, nextMessageId := 1 }
          1 2 0).2 2 1 0).1).id
      = ((findOrCreateConversation
          { users := [1, 2], conversations := [], messages := [],
            connected := [], nextConversationId := 1, nextMessageId := 1 }
          1 2 0).1).id :=
  ⟨by decide,
   (resolve_pair_symmetric
      { users := [1, 2], conversations := [], messages := [],
        connected := [], nextConversationId := 1, nextMessageId := 1 }
      1 2 0 0 (by decide)).1⟩

/-! ## C4: successful edits append exactly one history entry -/

/-- C4: for a non-deleted message and a successful edit by its sender with
content that is non-empty after trimming — through the socket handler
(`handleUpdateMessage`) or through the REST endpoint
(`restUpdateMessage`) — the edit history grows by exactly one entry, the
appended entry holds the pre-edit content, the content becomes the trimmed
new content, and `isEdited` becomes true. -/
theorem edit_appends_history (db : DB) (uid mid : Nat) (content : String)
    (now : Nat) (m : Message)
    (hfind : findMessage db.messages mid = some m)
    (hsender : m.senderId = uid)
    (hdel : m.isDeleted = false)
    (hc : strTrim content ≠ "") :
    (∃ m', findMessage
        (handleUpdateMessage db uid mid content now).1.messages mid
          = some m' ∧
      m'.editHistory.length = m.editHistory.length + 1 ∧
      m'.editHistory.getLast? = some ⟨m.content, now⟩ ∧
      m'.content = strTrim content ∧
      m'.isEdited = true) ∧
    (∃ m', findMessage
        (restUpdateMessage db uid mid content now).1.messages mid
          = some m' ∧
      m'.editHistory.length = m.editHistory.length + 1 ∧
      m'.editHistory.getLast? = some ⟨m.content, now⟩ ∧
      m'.content = strTrim content ∧
      m'.isEdited = true) := by
  have hres1 : (handleUpdateMessage db uid mid content now).1.messages
      = saveMessage db.messages
          { m with editHistory := m.editHistory ++ [⟨m.content, now⟩]
                   content := strTrim content
                   isEdited := true
                   editedAt := some now } := by
    simp [handleUpdateMessage, hc, hfind, hsender, hdel]
  have hres2 : (restUpdateMessage db uid mid content now).1.messages
      = saveMessage db.messages
          { m with editHistory := m.editHistory ++ [⟨m.content, now⟩]
                   content := strTrim content
                   isEdited := true
                   editedAt := some now } := by
    simp [restUpdateMessage, hc, hfind, hsender, hdel]
  constructor
  · refine ⟨{ m with editHistory := m.editHistory ++ [⟨m.content, now⟩]
                     content := strTrim content
                     isEdited := true
                     editedAt := some now }, ?_, ?_, ?_, rfl, rfl⟩
    · rw [hres1]
      apply findMessage_saveMessage hfind
      have hid := findMessage_id hfind
      exact hid
    · simp
    · simp
  · refine ⟨{ m with editHistory := m.editHistory ++ [⟨m.content, now⟩]
                     content := strTrim content
                     isEdited := true
                     editedAt := some now }, ?_, ?_, ?_, rfl, rfl⟩
    · rw [hres2]
      apply findMessage_saveMessage hfind
      have hid := findMessage_id hfind
      exact hid
    · simp
    · simp

/-- Witness for `edit_appends_history`: editing the sample message through
the socket handler and through the REST endpoint. -/
theorem edit_appends_history_witness :
    findMessage sampleDB.messages 1 = some sampleMessage ∧
    (∃ m', findMessage
        (handleUpdateMessage sampleDB 1 1 " bye " 4).1.messages 1
          = some m' ∧
      m'.editHistory.length = sampleMessage.editHistory.length + 1 ∧
      m'.editHistory.getLast? = some ⟨sampleMessage.content, 4⟩ ∧
      m'.content = strTrim " bye " ∧
      m'.isEdited = true) ∧
    (∃ m', findMessage
        (restUpdateMessage sampleDB 1 1 " bye " 4).1.messages 1
          = some m' ∧
      m'.editHistory.length = sampleMessage.editHistory.length + 1 ∧
      m'.editHistory.getLast? = some ⟨sampleMessage.content, 4⟩ ∧
      m'.content = strTrim " bye " ∧
      m'.isEdited = true) :=
  ⟨by decide,
   (edit_appends_history sampleDB 1 1 " bye " 4 sampleMessage (by decide)
     (by decide) (by decide) (by decide)).1,
   (edit_appends_history sampleDB 1 1 " bye " 4 sampleMessage (by decide)
     (by decide) (by decide) (by decide)).2⟩

/-! ## C5: deletion keeps the backup fields and `getHistory` still serves them -/

/-- C5: a successful delete by the sender sets `isDeleted`, stamps
`deletedAt`, replaces the visible content with the fixed placeholder, and
leaves `originalContent` and `editHistory` untouched; `getHistory` called
afterwards by the sender or the receiver still returns the original
content, the full edit history and the deletion metadata. -/
theorem delete_preserves_backup (db : DB) (uid mid now : Nat) (m : Message)
    (hfind : findMessage db.messages mid = some m)
    (hsender : m.senderId = uid) :
    ∃ m', findMessage (handleDeleteMessage db uid mid now).1.messages mid
            = some m' ∧
      m'.isDeleted = true ∧
      m'.content = "This message was deleted" ∧
      m'.deletedAt = some now ∧
      m'.originalContent = m.originalContent ∧
      m'.editHistory = m.editHistory ∧
      ∀ v, (v = m.senderId ∨ v = m.receiverId) →
        getMessageHistory (handleDeleteMessage db uid mid now).1 v mid
          = .ok { originalContent := m.originalContent
                  currentContent := "This message was deleted"
                  editHistory := m.editHistory
                  isDeleted := true
                  deletedAt := some now
                  isEdited := m.isEdited
                  editedAt := m.editedAt } := by
  have hres : (handleDeleteMessage db uid mid now).1.messages
      = saveMessage db.messages
          { m with isDeleted := true, deletedAt := some now
                   content := "This message was deleted" } := by
    simp [handleDeleteMessage, hfind, hsender]
  have hfind' : findMessage (handleDeleteMessage db uid mid now).1.messages
      mid = some { m with isDeleted := true, deletedAt := some now
                          content := "This message was deleted" } := by
    rw [hres]
    apply findMessage_saveMessage hfind
    have hid := findMessage_id hfind
    exact hid
  refine ⟨_, hfind', rfl, rfl, rfl, rfl, rfl, ?_⟩
  intro v hv
  rcases hv with h | h <;> simp [getMessageHistory, hfind', h]

/-- Witness for `delete_preserves_backup`: deleting the sample message and
reading its history as the receiver. -/
theorem delete_preserves_backup_witness :
    findMessage sampleDB.messages 1 = some sampleMessage ∧
    ∃ m', findMessage (handleDeleteMessage sampleDB 1 1 9).1.messages 1
            = some m' ∧
      m'.isDeleted = true ∧
      m'.content = "This message was deleted" ∧
      m'.deletedAt = some 9 ∧
      m'.originalContent = sampleMessage.originalContent ∧
      m'.editHistory = sampleMessage.editHistory ∧
      ∀ v, (v = sampleMessage.senderId ∨ v = sampleMessage.receiverId) →
        getMessageHistory (handleDeleteMessage sampleDB 1 1 9).1 v 1
          = .ok { originalContent := sampleMessage.originalContent
                  currentContent := "This message was deleted"
                  editHistory := sampleMessage.editHistory
                  isDeleted := true
                  deletedAt := some 9
                  isEdited := sampleMessage.isEdited
                  editedAt := sampleMessage.editedAt } :=
  ⟨by decide,
   delete_preserves_backup sampleDB 1 1 9 sampleMessage (by decide)
     (by decide)⟩

/-! ## C10: deleting an already-deleted message succeeds again -/

/-- C10: a second delete by the sender of an already-deleted message is not
rejected: it keeps `isDeleted` true and the placeholder content, overwrites
`deletedAt` with the new time, and emits `messageDeleted` to both parties
again. -/
theorem delete_of_deleted_succeeds (db : DB) (uid mid now : Nat)
    (m : Message)
    (hfind : findMessage db.messages mid = some m)
    (hsender : m.senderId = uid)
    (_hdel : m.isDeleted = true) :
    ∃ m', findMessage (handleDeleteMessage db uid mid now).1.messages mid
            = some m' ∧
      m'.isDeleted = true ∧
      m'.content = "This message was deleted" ∧
      m'.deletedAt = some now ∧
      (handleDeleteMessage db uid mid now).2 =
        [⟨uid, .messageDeleted (sanitizeMessage m')⟩,
         ⟨m.receiverId, .messageDeleted (sanitizeMessage m')⟩] := by
  refine ⟨{ m with isDeleted := true, deletedAt := some now
                   content := "This message was deleted" }, ?_, rfl, rfl, rfl, ?_⟩
  · have hres : (handleDeleteMessage db uid mid now).1.messages
        = saveMessage db.messages
            { m with isDeleted := true, deletedAt := some now
                     content := "This message was deleted" } := by
      simp [handleDeleteMessage, hfind, hsender]
    rw [hres]
    apply findMessage_saveMessage hfind
    have hid := findMessage_id hfind
    exact hid
  · simp [handleDeleteMessage, hfind, hsender]

/-- Witness for `delete_of_deleted_succeeds`: re-deleting the
already-deleted sample message at time 9. -/
theorem delete_of_deleted_succeeds_witness :
    findMessage sampleDeletedDB.messages 1 = some sampleDeletedMessage ∧
    ∃ m', findMessage
            (handleDeleteMessage sampleDeletedDB 1 1 9).1.messages 1
            = some m' ∧
      m'.isDeleted = true ∧
      m'.content = "This message was deleted" ∧
      m'.deletedAt = some 9 ∧
      (handleDeleteMessage sampleDeletedDB 1 1 9).2 =
        [⟨1, .messageDeleted (sanitizeMessage m')⟩,
         ⟨sampleDeletedMessage.receiverId,
          .messageDeleted (sanitizeMessage m')⟩] :=
  ⟨by decide,
   delete_of_deleted_succeeds sampleDeletedDB 1 1 9 sampleDeletedMessage
     (by decide) (by decide) (by decide)⟩

/-! ## C3: the REST mark-as-read endpoint breaks `isRead ⇒ isDelivered` -/

/-- C3 (code bug): marking the pending sample message as read through the
REST endpoint succeeds but leaves `isDelivered` false while `isRead`
becomes true, violating the invariant `isRead ⇒ isDelivered`; the socket
handler sets both flags, the REST handler only `isRead`. -/
theorem restMarkAsRead_breaks_read_implies_delivered :
    (restMarkAsRead sampleDB 2 1).2 = .ok "Message marked as read" ∧
    findMessage (restMarkAsRead sampleDB 2 1).1.messages 1
      = some { sampleMessage with isRead := true } ∧
    ({ sampleMessage with isRead := true }).isRead = true ∧
    ({ sampleMessage with isRead := true }).isDelivered = false := by
  refine ⟨?_, ?_, rfl, rfl⟩ <;> decide

/-! ## C6: markAsRead idempotence (counterexample and amended form) -/

/-- C6 counterexample: after the receiver marks the sample message as read,
a second single-message `markAsRead` call emits `messageRead` again — the
second run is not emission-free, refuting the claim as stated. -/
theorem markAsRead_second_call_reemits :
    (handleMarkAsRead (handleMarkAsRead sampleDB 2 ⟨1, none⟩).1 2
        ⟨1, none⟩).2 = [⟨1, .messageRead 1 1⟩] := by
  decide

/-! ## C7: send-path validation (counterexample and amended form) -/

/-- C7 counterexample: `handleSendMessage` has no content validation — a
message whose content is empty after trimming is persisted and echoed with
`newMessage`, with no `error` event, refuting the claim as stated. -/
theorem send_accepts_empty_content :
    (handleSendMessage sampleDB 1 2 " " 5).1.messages.length = 2 ∧
    ((handleSendMessage sampleDB 1 2 " " 5).2.all
      (fun e => match e.event with
                | .errorEvent _ => false
                | _ => true)) = true ∧
    strTrim " " = "" := by
  refine ⟨?_, ?_, ?_⟩ <;> decide

/-- A conversation found by the pair lookup always contains the first user
of the pair. -/
theorem findConversationByPair_mem_first {convs : List Conversation}
    {a b : Nat} {c : Conversation}
    (h : findConversationByPair convs a b = some c) :
    c.user1Id = a ∨ c.user2Id = a := by
  have hp := List.find?_some h
  have : (c.user1Id = a ∧ c.user2Id = b) ∨ (c.user1Id = b ∧ c.user2Id = a) := by
    simpa using hp
  rcases this with ⟨h1, _⟩ | ⟨_, h2⟩
  · exact Or.inl h1
  · exact Or.inr h2

/-- C7 amended: `handleSendMessage` rejects with an `error` event and
changes nothing when the sender addresses themself or the receiver does not
exist; content that is empty after trimming is *not* rejected — on every
validated send exactly one message is persisted, whatever the content. -/
theorem send_validation_amended (db : DB) (s r : Nat) (content : String)
    (now : Nat) :
    (s = r → handleSendMessage db s r content now
        = (db, [⟨s, .errorEvent "Cannot send message to yourself"⟩])) ∧
    (s ≠ r → r ∉ db.users → handleSendMessage db s r content now
        = (db, [⟨s, .errorEvent "Receiver not found"⟩])) ∧
    (s ≠ r → r ∈ db.users →
      (handleSendMessage db s r content now).1.messages.length
        = db.messages.length + 1) := by
  refine ⟨?_, ?_, ?_⟩
  · intro h
    simp [handleSendMessage, h]
  · intro h hr
    simp [handleSendMessage, h, hr]
  · intro h hr
    unfold handleSendMessage
    rw [if_neg h, if_neg (not_not_intro hr)]
    cases hfc : findConversationByPair db.conversations s r with
    | some c =>
        have hmem := findConversationByPair_mem_first hfc
        have hguard : ¬ (c.user1Id ≠ s ∧ c.user2Id ≠ s) := by
          rcases hmem with h1 | h1 <;> simp [h1]
        simp only [findOrCreateConversation, hfc, if_neg hguard]
        by_cases hconn : r ∈ db.connected <;>
          simp [hconn, hr, hguard, saveMessage_length]
    | none =>
        simp only [findOrCreateConversation, hfc]
        by_cases hconn : r ∈ db.connected <;>
          simp [hconn, hr, saveMessage_length]

/-- Witness for `send_validation_amended`: the three branches at concrete
inputs. -/
theorem send_validation_amended_witness :
    (handleSendMessage sampleDB 1 1 "hi" 5
        = (sampleDB, [⟨1, .errorEvent "Cannot send message to yourself"⟩])) ∧
    (handleSendMessage sampleDB 1 3 "hi" 5
        = (sampleDB, [⟨1, .errorEvent "Receiver not found"⟩])) ∧
    (handleSendMessage sampleDB 1 2 "hi" 5).1.messages.length
        = sampleDB.messages.length + 1 :=
  ⟨(send_validation_amended sampleDB 1 1 "hi" 5).1 rfl,
   (send_validation_amended sampleDB 1 3 "hi" 5).2.1 (by decide) (by decide),
   (send_validation_amended sampleDB 1 2 "hi" 5).2.2 (by decide) (by decide)⟩

/-! ## C8: self-conversation rejection (counterexample and amended form) -/

/-- C8 counterexample: the REST create-conversation endpoint does not check
`userId = participantId`: user 1 creating a conversation with themself
succeeds and stores a self-conversation, refuting the claim that every
resolution path rejects equal identities. -/
theorem restCreateConversation_allows_self :
    (restCreateConversation sampleDB 1 1 7).2 = .ok 2 ∧
    (restCreateConversation sampleDB 1 1 7).1.conversations.length = 2 := by
  refine ⟨?_, ?_⟩ <;> decide

/-- C8 amended: only the real-time send path rejects a self-pair — the REST
create-conversation endpoint accepts an existing self user and will
find-or-create a conversation whose two participants are equal. -/
theorem self_conversation_amended (db : DB) (u : Nat) (content : String)
    (now : Nat) :
    (handleSendMessage db u u content now
        = (db, [⟨u, .errorEvent "Cannot send message to yourself"⟩])) ∧
    (u ≠ 0 → u ∈ db.users →
      ∃ cid, (restCreateConversation db u u now).2 = .ok cid) ∧
    (u ≠ 0 → u ∈ db.users →
      findConversationByPair db.conversations u u = none →
      (restCreateConversation db u u now).1.conversations.length
        = db.conversations.length + 1) := by
  refine ⟨?_, ?_, ?_⟩
  · simp [handleSendMessage]
  · intro h0 hu
    refine ⟨(findOrCreateConversation db u u now).1.id, ?_⟩
    simp [restCreateConversation, h0, hu]
  · intro h0 hu hfc
    simp [restCreateConversation, h0, hu, findOrCreateConversation, hfc]

/-- Witness for `self_conversation_amended` at the sample database. -/
theorem self_conversation_amended_witness :
    (handleSendMessage sampleDB 1 1 "hi" 5
        = (sampleDB, [⟨1, .errorEvent "Cannot send message to yourself"⟩])) ∧
    (∃ cid, (restCreateConversation sampleDB 1 1 7).2 = .ok cid) ∧
    (restCreateConversation sampleDB 1 1 7).1.conversations.length
        = sampleDB.conversations.length + 1 :=
  ⟨(self_conversation_amended sampleDB 1 "hi" 5).1,
   (self_conversation_amended sampleDB 1 "hi" 7).2.1 (by decide) (by decide),
   (self_conversation_amended sampleDB 1 "hi" 7).2.2 (by decide) (by decide)
     (by decide)⟩

/-! ## The mark-as-read loop under unique primary keys -/

theorem nodup_id_inj {l : List Message}
    (h : (l.map Message.id).Nodup) :
    ∀ x ∈ l, ∀ y ∈ l, x.id = y.id → x = y := by
  induction l with
  | nil => intro x hx; simp at hx
  | cons a t ih =>
      rw [List.map_cons, List.nodup_cons] at h
      intro x hx y hy hxy
      rcases List.mem_cons.mp hx with rfl | hx' <;>
        rcases List.mem_cons.mp hy with rfl | hy'
      · rfl
      · exfalso
        apply h.1
        rw [hxy]
        exact List.mem_map_of_mem _ hy'
      · exfalso
        apply h.1
        rw [← hxy]
        exact List.mem_map_of_mem _ hx'
      · exact ih h.2 x hx' y hy' hxy

theorem markAllLoop_emissions (msgs : List Message) (cid : Nat) :
    ∀ store, (markAllLoop msgs store cid).2
      = msgs.map (fun m => ⟨m.senderId, .messageRead m.id cid⟩) := by
  induction msgs with
  | nil => intro store; rfl
  | cons m rest ih =>
      intro store
      simp [markAllLoop, ih]

theorem markAllLoop_store (msgs : List Message) (cid : Nat) :
    ∀ store, (∀ x ∈ store, ∀ m ∈ msgs, x.id = m.id → x = m) →
    (msgs.map Message.id).Nodup →
    (markAllLoop msgs store cid).1
      = store.map (fun x =>
          if msgs.any (fun m => m.id = x.id) then markRead x else x) := by
  induction msgs with
  | nil =>
      intro store _ _
      simp [markAllLoop]
  | cons m rest ih =>
      intro store hinj hnd
      rw [List.map_cons, List.nodup_cons] at hnd
      have hstep : saveMessage store (markRead m)
          = store.map (fun x => if x.id = m.id then markRead x else x) := by
        unfold saveMessage
        apply List.map_congr_left
        intro x hx
        by_cases hxm : x.id = m.id
        · have hxeq : x = m := hinj x hx m (List.mem_cons_self m rest) hxm
          subst hxeq
          simp [markRead]
        · simp [markRead, hxm]
      have hinj1 : ∀ x1 ∈ store.map
            (fun x => if x.id = m.id then markRead x else x),
          ∀ m' ∈ rest, x1.id = m'.id → x1 = m' := by
        intro x1 hx1 m' hm' hid
        rcases List.mem_map.mp hx1 with ⟨x, hx, rfl⟩
        by_cases hxm : x.id = m.id
        · exfalso
          apply hnd.1
          have hm'id : m'.id = m.id := by
            rw [← hid]
            simp [hxm, markRead]
          rw [← hm'id]
          exact List.mem_map_of_mem _ hm'
        · rw [if_neg hxm] at hid ⊢
          exact hinj x hx m' (List.mem_cons_of_mem m hm') hid
      have ihr := ih
        (store.map (fun x => if x.id = m.id then markRead x else x))
        hinj1 hnd.2
      show (markAllLoop (m :: rest) store cid).1 = _
      unfold markAllLoop
      rw [hstep]
      rw [ihr, List.map_map]
      apply List.map_congr_left
      intro x hx
      by_cases hxm : x.id = m.id
      · have hany : rest.any
            (fun m' => m'.id = (markRead x).id) = false := by
          rw [Bool.eq_false_iff]
          intro hmem
          rcases List.any_eq_true.mp hmem with ⟨m', hm', hid⟩
          apply hnd.1
          have : m'.id = m.id := by
            have hidx : m'.id = (markRead x).id := by simpa using hid
            rw [hidx]
            simp [markRead, hxm]
          rw [← this]
          exact List.mem_map_of_mem _ hm'
        simp [Function.comp, hxm, hany, markRead]
      · have hxm' : ¬ m.id = x.id := fun h => hxm h.symm
        simp [Function.comp, hxm, hxm', markRead]

theorem filter_any_id {store : List Message} (p : Message → Bool)
    (hnd : (store.map Message.id).Nodup) {x : Message} (hx : x ∈ store) :
    ((store.filter p).any (fun m => m.id = x.id)) = p x := by
  cases hp : p x
  · rw [Bool.eq_false_iff]
    intro h
    rcases List.any_eq_true.mp h with ⟨m', hm', hid⟩
    have hm's : m' ∈ store := (List.mem_filter.mp hm').1
    have hpm' : p m' = true := (List.mem_filter.mp hm').2
    have hmx : m' = x :=
      nodup_id_inj hnd m' hm's x hx (by simpa using hid)
    rw [hmx, hp] at hpm'
    cases hpm'
  · apply List.any_eq_true.mpr
    exact ⟨x, List.mem_filter.mpr ⟨hx, hp⟩, by simp⟩

theorem saveMessage_idem (l : List Message) (m : Message) :
    saveMessage (saveMessage l m) m = saveMessage l m := by
  unfold saveMessage
  rw [List.map_map]
  apply List.map_congr_left
  intro x _
  by_cases hx : x.id = m.id <;> simp [Function.comp, hx]

/-! ## C1: routing only ever targets the sender's or receiver's channel -/

theorem sendMessage_routes (db : DB) (s r : Nat) (content : String)
    (now : Nat) :
    ∀ e ∈ (handleSendMessage db s r content now).2,
      emissionOk (handleSendMessage db s r content now).1 e := by
  intro e he
  by_cases h1 : s = r
  · simp [handleSendMessage, h1] at he
    subst he
    exact trivial
  · by_cases h2 : r ∈ db.users
    · cases hfc : findConversationByPair db.conversations s r with
      | some c =>
          have hmem := findConversationByPair_mem_first hfc
          have hguard : ¬ (c.user1Id ≠ s ∧ c.user2Id ≠ s) := by
            rcases hmem with hh | hh <;> simp [hh]
          by_cases hconn : r ∈ db.connected
          · simp only [handleSendMessage, findOrCreateConversation, hfc,
              h1, h2, hconn, hguard] at he ⊢
            simp at he ⊢
            rcases he with rfl | rfl | rfl
            · exact Or.inl rfl
            · exact Or.inr rfl
            · exact ⟨_, mem_saveMessage_self _
                (List.mem_append_right _ (List.mem_singleton_self _)) rfl,
                rfl, Or.inl rfl⟩
          · simp only [handleSendMessage, findOrCreateConversation, hfc,
              h1, h2, hconn, hguard] at he ⊢
            simp at he ⊢
            rw [he]
            exact Or.inl rfl
      | none =>
          by_cases hconn : r ∈ db.connected
          · simp only [handleSendMessage, findOrCreateConversation, hfc,
              h1, h2, hconn] at he ⊢
            simp at he ⊢
            rcases he with rfl | rfl | rfl
            · exact Or.inl rfl
            · exact Or.inr rfl
            · exact ⟨_, mem_saveMessage_self _
                (List.mem_append_right _ (List.mem_singleton_self _)) rfl,
                rfl, Or.inl rfl⟩
          · simp only [handleSendMessage, findOrCreateConversation, hfc,
              h1, h2, hconn] at he ⊢
            simp at he ⊢
            rw [he]
            exact Or.inl rfl
    · simp [handleSendMessage, h1, h2] at he
      subst he
      exact trivial

theorem markAsRead_routes (db : DB) (uid : Nat) (data : MarkAsReadData)
    (hnd : (db.messages.map Message.id).Nodup) :
    ∀ e ∈ (handleMarkAsRead db uid data).2,
      emissionOk (handleMarkAsRead db uid data).1 e := by
  intro e he
  cases hdata : data.conversationId with
  | some cid =>
      simp only [handleMarkAsRead, hdata] at he ⊢
      rw [markAllLoop_emissions] at he
      rcases List.mem_map.mp he with ⟨m, hm, rfl⟩
      have hinj0 : ∀ x ∈ db.messages,
          ∀ m' ∈ db.messages.filter (unreadFor cid uid),
          x.id = m'.id → x = m' := by
        intro x hx m' hm' hid
        exact nodup_id_inj hnd x hx m' (List.mem_filter.mp hm').1 hid
      have hnd0 :
          ((db.messages.filter (unreadFor cid uid)).map Message.id).Nodup :=
        List.Nodup.sublist
          (List.Sublist.map _ (List.filter_sublist _)) hnd
      have hst := markAllLoop_store
        (db.messages.filter (unreadFor cid uid)) cid db.messages hinj0 hnd0
      refine ⟨markRead m, ?_, rfl, Or.inl rfl⟩
      rw [hst]
      have hcond : (db.messages.filter (unreadFor cid uid)).any
          (fun m' => m'.id = m.id) = true :=
        List.any_eq_true.mpr ⟨m, hm, by simp⟩
      have happ : (fun x =>
          if (db.messages.filter (unreadFor cid uid)).any
              (fun m' => m'.id = x.id) then markRead x else x) m
            = markRead m := by
        simp only [hcond, if_true]
      rw [← happ]
      exact List.mem_map_of_mem _ (List.mem_filter.mp hm).1
  | none =>
      cases hfind : findMessage db.messages data.messageId with
      | none =>
          simp [handleMarkAsRead, hdata, hfind] at he
      | some m =>
          by_cases hrecv : m.receiverId = uid
          · simp only [handleMarkAsRead, hdata, hfind] at he ⊢
            rw [if_neg (not_not_intro hrecv)] at he ⊢
            simp at he
            subst he
            exact ⟨markRead m,
              mem_saveMessage_self _ (findMessage_mem hfind) rfl,
              rfl, Or.inl rfl⟩
          · simp [handleMarkAsRead, hdata, hfind, hrecv] at he

theorem typing_routes (db : DB) (uid cid : Nat) :
    ∀ e ∈ (handleTyping db uid cid).2,
      emissionOk (handleTyping db uid cid).1 e := by
  intro e he
  cases hfc : findConversationById db.conversations cid with
  | none => simp [handleTyping, hfc] at he
  | some c =>
      have hcid : c.id = cid := by simpa using List.find?_some hfc
      have hcmem : c ∈ db.conversations := List.mem_of_find?_eq_some hfc
      by_cases hguard : c.user1Id ≠ uid ∧ c.user2Id ≠ uid
      · simp [handleTyping, hfc, hguard] at he
      · simp only [handleTyping, hfc] at he ⊢
        rw [if_neg hguard] at he ⊢
        simp at he
        subst he
        by_cases h1 : c.user1Id = uid
        · refine ⟨c, hcmem, hcid, ?_⟩
          rw [if_pos h1]
          exact Or.inr rfl
        · refine ⟨c, hcmem, hcid, ?_⟩
          rw [if_neg h1]
          exact Or.inl rfl

theorem updateMessage_routes (db : DB) (uid mid : Nat) (content : String)
    (now : Nat) :
    ∀ e ∈ (handleUpdateMessage db uid mid content now).2,
      emissionOk (handleUpdateMessage db uid mid content now).1 e := by
  intro e he
  by_cases hc : strTrim content = ""
  · simp [handleUpdateMessage, hc] at he
    subst he
    exact trivial
  · cases hfind : findMessage db.messages mid with
    | none =>
        simp [handleUpdateMessage, hc, hfind] at he
        subst he
        exact trivial
    | some m =>
        by_cases hsender : m.senderId = uid
        · by_cases hdel : m.isDeleted
          · simp [handleUpdateMessage, hc, hfind, hsender, hdel] at he
            subst he
            exact trivial
          · simp only [handleUpdateMessage, hc, hfind, hsender, hdel] at he ⊢
            simp at he ⊢
            rcases he with rfl | rfl
            · exact Or.inl rfl
            · exact Or.inr rfl
        · simp [handleUpdateMessage, hc, hfind, hsender] at he
          subst he
          exact trivial

theorem deleteMessage_routes (db : DB) (uid mid now : Nat) :
    ∀ e ∈ (handleDeleteMessage db uid mid now).2,
      emissionOk (handleDeleteMessage db uid mid now).1 e := by
  intro e he
  cases hfind : findMessage db.messages mid with
  | none =>
      simp [handleDeleteMessage, hfind] at he
      subst he
      exact trivial
  | some m =>
      by_cases hsender : m.senderId = uid
      · simp only [handleDeleteMessage, hfind, hsender] at he ⊢
        simp at he ⊢
        rcases he with rfl | rfl
        · exact Or.inl rfl
        · exact Or.inr rfl
      · simp [handleDeleteMessage, hfind, hsender] at he
        subst he
        exact trivial

/-- C1: for every inbound message-related event and every state whose
message table has unique primary keys, each resulting `newMessage`,
`messageDelivered`, `messageRead`, `messageUpdated`, `messageDeleted` or
`typing` emission goes only to the channel of that message's (or
conversation's) sender or receiver, never to a third party's channel. -/
theorem events_route_only_to_participants (db : DB) (uid : Nat)
    (ev : ClientEvent) (now : Nat)
    (hnd : (db.messages.map Message.id).Nodup) :
    ∀ e ∈ (handleEvent db uid ev now).2,
      emissionOk (handleEvent db uid ev now).1 e := by
  cases ev with
  | sendMessage r content => exact sendMessage_routes db uid r content now
  | markAsRead data => exact markAsRead_routes db uid data hnd
  | typing cid => exact typing_routes db uid cid
  | updateMessage mid content =>
      exact updateMessage_routes db uid mid content now
  | deleteMessage mid => exact deleteMessage_routes db uid mid now

/-- Witness for `events_route_only_to_participants`: the `messageRead`
notice produced by marking the sample message as read goes to its sender's
channel. -/
theorem events_route_only_to_participants_witness :
    (sampleDB.messages.map Message.id).Nodup ∧
    emissionOk (handleEvent sampleDB 2 (.markAsRead ⟨1, none⟩) 0).1
      ⟨1, .messageRead 1 1⟩ :=
  ⟨by decide,
   events_route_only_to_participants sampleDB 2 (.markAsRead ⟨1, none⟩) 0
     (by decide) ⟨1, .messageRead 1 1⟩ (by decide)⟩

/-! ## C6 (amended): markAsRead is state-idempotent; only the
single-message form re-emits on the second call -/

theorem markRead_idem (m : Message) : markRead (markRead m) = markRead m :=
  rfl

theorem markAllLoop_store_marks (db : DB) (uid cid : Nat)
    (hnd : (db.messages.map Message.id).Nodup) :
    (markAllLoop (db.messages.filter (unreadFor cid uid)) db.messages
        cid).1
      = db.messages.map
          (fun x => if unreadFor cid uid x then markRead x else x) := by
  have hinj0 : ∀ x ∈ db.messages,
      ∀ m' ∈ db.messages.filter (unreadFor cid uid),
      x.id = m'.id → x = m' := by
    intro x hx m' hm' hid
    exact nodup_id_inj hnd x hx m' (List.mem_filter.mp hm').1 hid
  have hnd0 :
      ((db.messages.filter (unreadFor cid uid)).map Message.id).Nodup :=
    List.Nodup.sublist (List.Sublist.map _ (List.filter_sublist _)) hnd
  rw [markAllLoop_store _ _ _ hinj0 hnd0]
  apply List.map_congr_left
  intro x hx
  rw [filter_any_id _ hnd hx]

theorem marked_filter_empty (db : DB) (uid cid : Nat) :
    (db.messages.map
        (fun x => if unreadFor cid uid x then markRead x else x)).filter
      (unreadFor cid uid) = [] := by
  rw [List.filter_eq_nil_iff]
  intro y hy
  rcases List.mem_map.mp hy with ⟨x, _, rfl⟩
  by_cases hp : unreadFor cid uid x = true
  · simp only [hp, if_true]
    simp [unreadFor, markRead]
  · simp only [hp, if_false]
    simp at hp
    simp [hp]

/-- C6 (amended): `markAsRead` is state-idempotent in both forms — a second
run leaves the message table exactly as the first left it; the conversation
form's second run emits nothing, but the single-message form's second run
emits the same `messageRead` again; for a nonexistent message or a caller
who is not the receiver, the single-message form succeeds with no state
change and no emission. -/
theorem markAsRead_idempotent_amended (db : DB) (uid mid cid : Nat)
    (hnd : (db.messages.map Message.id).Nodup) :
    ((handleMarkAsRead (handleMarkAsRead db uid ⟨mid, some cid⟩).1 uid
        ⟨mid, some cid⟩).1 = (handleMarkAsRead db uid ⟨mid, some cid⟩).1 ∧
     (handleMarkAsRead (handleMarkAsRead db uid ⟨mid, some cid⟩).1 uid
        ⟨mid, some cid⟩).2 = []) ∧
    ((handleMarkAsRead (handleMarkAsRead db uid ⟨mid, none⟩).1 uid
        ⟨mid, none⟩).1 = (handleMarkAsRead db uid ⟨mid, none⟩).1 ∧
     (handleMarkAsRead (handleMarkAsRead db uid ⟨mid, none⟩).1 uid
        ⟨mid, none⟩).2 = (handleMarkAsRead db uid ⟨mid, none⟩).2) ∧
    (findMessage db.messages mid = none →
      handleMarkAsRead db uid ⟨mid, none⟩ = (db, [])) ∧
    (∀ m, findMessage db.messages mid = some m → m.receiverId ≠ uid →
      handleMarkAsRead db uid ⟨mid, none⟩ = (db, [])) := by
  refine ⟨?_, ?_, ?_, ?_⟩
  · -- conversation form
    have h1 : handleMarkAsRead db uid ⟨mid, some cid⟩
        = ({ db with messages :=
              (markAllLoop (db.messages.filter (unreadFor cid uid))
                db.messages cid).1 },
           (markAllLoop (db.messages.filter (unreadFor cid uid))
              db.messages cid).2) := rfl
    have hS := markAllLoop_store_marks db uid cid hnd
    have hempty : ((markAllLoop
        (db.messages.filter (unreadFor cid uid)) db.messages cid).1).filter
          (unreadFor cid uid) = [] := by
      rw [hS]
      exact marked_filter_empty db uid cid
    constructor
    · show ({ ({ db with messages :=
          (markAllLoop (db.messages.filter (unreadFor cid uid))
            db.messages cid).1 } : DB) with messages :=
          (markAllLoop
            (((markAllLoop (db.messages.filter (unreadFor cid uid))
                db.messages cid).1).filter (unreadFor cid uid))
            ((markAllLoop (db.messages.filter (unreadFor cid uid))
                db.messages cid).1) cid).1 } : DB) = _
      rw [hempty]
      rfl
    · show (markAllLoop
          (((markAllLoop (db.messages.filter (unreadFor cid uid))
              db.messages cid).1).filter (unreadFor cid uid))
          ((markAllLoop (db.messages.filter (unreadFor cid uid))
              db.messages cid).1) cid).2 = []
      rw [hempty]
      rfl
  · -- single-message form
    cases hfind : findMessage db.messages mid with
    | none =>
        have h1 : handleMarkAsRead db uid ⟨mid, none⟩ = (db, []) := by
          simp [handleMarkAsRead, hfind]
        rw [h1]
        exact ⟨congrArg Prod.fst h1, congrArg Prod.snd h1⟩
    | some m =>
        by_cases hrecv : m.receiverId = uid
        · have h1 : handleMarkAsRead db uid ⟨mid, none⟩
              = ({ db with messages :=
                    saveMessage db.messages (markRead m) },
                 [⟨m.senderId, .messageRead m.id m.conversationId⟩]) := by
            simp only [handleMarkAsRead, hfind]
            rw [if_neg (not_not_intro hrecv)]
          have hid := findMessage_id hfind
          have hfind2 : findMessage
              (saveMessage db.messages (markRead m)) mid
                = some (markRead m) := by
            apply findMessage_saveMessage hfind
            exact hid
          have h2 : handleMarkAsRead
              { db with messages := saveMessage db.messages (markRead m) }
              uid ⟨mid, none⟩
              = ({ db with messages :=
                    saveMessage db.messages (markRead m) },
                 [⟨m.senderId, .messageRead m.id m.conversationId⟩]) := by
            simp only [handleMarkAsRead, hfind2]
            rw [if_neg (show ¬ ((markRead m).receiverId ≠ uid) from
              not_not_intro hrecv)]
            rw [markRead_idem]
            have hsave : saveMessage (saveMessage db.messages (markRead m))
                (markRead m) = saveMessage db.messages (markRead m) :=
              saveMessage_idem db.messages (markRead m)
            rw [hsave]
            rfl
          rw [h1, h2]
          exact ⟨rfl, rfl⟩
        · have h1 : handleMarkAsRead db uid ⟨mid, none⟩ = (db, []) := by
            simp only [handleMarkAsRead, hfind]
            rw [if_pos hrecv]
          rw [h1]
          exact ⟨congrArg Prod.fst h1, congrArg Prod.snd h1⟩
  · -- nonexistent message: silent no-op
    intro hfind
    simp [handleMarkAsRead, hfind]
  · -- foreign message: silent no-op
    intro m hfind hrecv
    simp only [handleMarkAsRead, hfind]
    rw [if_pos hrecv]

/-- Witness for `markAsRead_idempotent_amended` at the sample database. -/
theorem markAsRead_idempotent_amended_witness :
    (sampleDB.messages.map Message.id).Nodup ∧
    (handleMarkAsRead (handleMarkAsRead sampleDB 2 ⟨0, some 1⟩).1 2
        ⟨0, some 1⟩).2 = [] ∧
    (handleMarkAsRead (handleMarkAsRead sampleDB 2 ⟨1, none⟩).1 2
        ⟨1, none⟩).1 = (handleMarkAsRead sampleDB 2 ⟨1, none⟩).1 :=
  ⟨by decide,
   (markAsRead_idempotent_amended sampleDB 2 0 1 (by decide)).1.2,
   (markAsRead_idempotent_amended sampleDB 2 1 1 (by decide)).2.1.1⟩

/-! ## C9: sanitization — lemmas about `relMsg`-related states -/

theorem relMsg_refl (m : Message) : relMsg m m :=
  ⟨rfl, rfl, rfl, rfl, rfl, rfl, rfl, rfl, rfl, rfl, rfl, rfl⟩

theorem relDB_refl (db : DB) : relDB db db :=
  ⟨rfl, rfl, rfl, rfl, rfl,
   List.forall₂_same.mpr (fun x _ => relMsg_refl x)⟩

theorem relMsg_id_eq {m1 m2 : Message} (h : relMsg m1 m2) :
    m1.id = m2.id := h.1

theorem relMsg_content_eq {m1 m2 : Message} (h : relMsg m1 m2) :
    m1.content = m2.content := h.2.1

theorem relMsg_senderId_eq {m1 m2 : Message} (h : relMsg m1 m2) :
    m1.senderId = m2.senderId := h.2.2.1

theorem relMsg_receiverId_eq {m1 m2 : Message} (h : relMsg m1 m2) :
    m1.receiverId = m2.receiverId := h.2.2.2.1

theorem relMsg_conversationId_eq {m1 m2 : Message} (h : relMsg m1 m2) :
    m1.conversationId = m2.conversationId := h.2.2.2.2.1

theorem relMsg_isRead_eq {m1 m2 : Message} (h : relMsg m1 m2) :
    m1.isRead = m2.isRead := h.2.2.2.2.2.1

theorem relMsg_isDeleted_eq {m1 m2 : Message} (h : relMsg m1 m2) :
    m1.isDeleted = m2.isDeleted := h.2.2.2.2.2.2.2.1

theorem relMsg_createdAt_eq {m1 m2 : Message} (h : relMsg m1 m2) :
    m1.createdAt = m2.createdAt := h.2.2.2.2.2.2.2.2.2.2.2

theorem sanitize_eq_of_rel {m1 m2 : Message} (h : relMsg m1 m2) :
    sanitizeMessage m1 = sanitizeMessage m2 := by
  obtain ⟨h1, h2, h3, h4, h5, h6, h7, h8, h9, h10, h11, h12⟩ := h
  simp [sanitizeMessage, h1, h2, h3, h4, h5, h6, h7, h8, h9, h10, h11, h12]

theorem forall₂_filter_rel {p : Message → Bool}
    (hp : ∀ m1 m2, relMsg m1 m2 → p m1 = p m2) :
    ∀ {l1 l2}, List.Forall₂ relMsg l1 l2 →
      List.Forall₂ relMsg (l1.filter p) (l2.filter p) := by
  intro l1 l2 h
  induction h with
  | nil => exact List.Forall₂.nil
  | cons h1 h2 ih =>
      rename_i a b t1 t2
      rw [List.filter_cons, List.filter_cons, ← hp a b h1]
      by_cases hpa : p a = true
      · simp only [hpa, if_true]
        exact List.Forall₂.cons h1 ih
      · simp only [if_neg hpa]
        exact ih

theorem map_eq_of_rel {β : Type} {f : Message → β}
    (hf : ∀ m1 m2, relMsg m1 m2 → f m1 = f m2) :
    ∀ {l1 l2}, List.Forall₂ relMsg l1 l2 → l1.map f = l2.map f := by
  intro l1 l2 h
  induction h with
  | nil => rfl
  | cons h1 h2 ih =>
      rename_i a b t1 t2
      rw [List.map_cons, List.map_cons, hf a b h1, ih]

theorem find?_rel {p : Message → Bool}
    (hp : ∀ m1 m2, relMsg m1 m2 → p m1 = p m2) :
    ∀ {l1 l2}, List.Forall₂ relMsg l1 l2 →
      (l1.find? p = none ∧ l2.find? p = none) ∨
      ∃ m1 m2, l1.find? p = some m1 ∧ l2.find? p = some m2 ∧
        relMsg m1 m2 := by
  intro l1 l2 h
  induction h with
  | nil => exact Or.inl ⟨rfl, rfl⟩
  | cons h1 h2 ih =>
      rename_i a b t1 t2
      by_cases hpa : p a = true
      · have hpb : p b = true := by rw [← hp a b h1]; exact hpa
        exact Or.inr ⟨a, b, List.find?_cons_of_pos _ hpa,
          List.find?_cons_of_pos _ hpb, h1⟩
      · have hpb : ¬ p b = true := by rw [← hp a b h1]; exact hpa
        rw [List.find?_cons_of_neg _ hpa, List.find?_cons_of_neg _ hpb]
        exact ih

theorem insertDesc_rel {m1 m2 : Message} (hm : relMsg m1 m2) :
    ∀ {l1 l2}, List.Forall₂ relMsg l1 l2 →
      List.Forall₂ relMsg (insertByCreatedAtDesc m1 l1)
        (insertByCreatedAtDesc m2 l2) := by
  intro l1 l2 h
  induction h with
  | nil => exact List.Forall₂.cons hm List.Forall₂.nil
  | cons h1 h2 ih =>
      rename_i a b t1 t2
      have hca : a.createdAt = b.createdAt := relMsg_createdAt_eq h1
      have hcm : m1.createdAt = m2.createdAt := relMsg_createdAt_eq hm
      by_cases hcmp : a.createdAt ≥ m1.createdAt
      · have hcmp2 : b.createdAt ≥ m2.createdAt := by
          rw [← hca, ← hcm]; exact hcmp
        rw [show insertByCreatedAtDesc m1 (a :: t1)
              = a :: insertByCreatedAtDesc m1 t1 from by
            simp [insertByCreatedAtDesc, hcmp]]
        rw [show insertByCreatedAtDesc m2 (b :: t2)
              = b :: insertByCreatedAtDesc m2 t2 from by
            simp [insertByCreatedAtDesc, hcmp2]]
        exact List.Forall₂.cons h1 ih
      · have hcmp2 : ¬ b.createdAt ≥ m2.createdAt := by
          rw [← hca, ← hcm]; exact hcmp
        rw [show insertByCreatedAtDesc m1 (a :: t1)
              = m1 :: a :: t1 from by
            simp [insertByCreatedAtDesc, hcmp]]
        rw [show insertByCreatedAtDesc m2 (b :: t2)
              = m2 :: b :: t2 from by
            simp [insertByCreatedAtDesc, hcmp2]]
        exact List.Forall₂.cons hm (List.Forall₂.cons h1 h2)

theorem sortDesc_rel :
    ∀ {l1 l2}, List.Forall₂ relMsg l1 l2 →
      List.Forall₂ relMsg (sortByCreatedAtDesc l1)
        (sortByCreatedAtDesc l2) := by
  intro l1 l2 h
  induction h with
  | nil => exact List.Forall₂.nil
  | cons h1 h2 ih =>
      exact insertDesc_rel h1 ih

theorem maxById_go_rel :
    ∀ {l1 l2}, List.Forall₂ relMsg l1 l2 →
      ∀ {acc1 acc2}, Option.Rel relMsg acc1 acc2 →
      Option.Rel relMsg
        (l1.foldl (fun acc m =>
          match acc with
          | none => some m
          | some x => if m.id > x.id then some m else some x) acc1)
        (l2.foldl (fun acc m =>
          match acc with
          | none => some m
          | some x => if m.id > x.id then some m else some x) acc2) := by
  intro l1 l2 h
  induction h with
  | nil => intro acc1 acc2 hacc; exact hacc
  | cons h1 h2 ih =>
      rename_i a b t1 t2
      intro acc1 acc2 hacc
      rw [List.foldl_cons, List.foldl_cons]
      apply ih
      cases hacc with
      | none => exact Option.Rel.some h1
      | some hxy =>
          rename_i x y
          have hid : x.id = y.id := relMsg_id_eq hxy
          have hmid : a.id = b.id := relMsg_id_eq h1
          dsimp only
          by_cases hgt : b.id > y.id
          · rw [show (if a.id > x.id then some a else some x) = some a from by
              rw [if_pos (by rw [hmid, hid]; exact hgt)]]
            rw [if_pos hgt]
            exact Option.Rel.some h1
          · rw [show (if a.id > x.id then some a else some x) = some x from by
              rw [if_neg (by rw [hmid, hid]; exact hgt)]]
            rw [if_neg hgt]
            exact Option.Rel.some hxy

theorem maxById_rel {l1 l2 : List Message}
    (h : List.Forall₂ relMsg l1 l2) :
    Option.Rel relMsg (maxById l1) (maxById l2) :=
  maxById_go_rel h Option.Rel.none

theorem findMessage_rel {l1 l2 : List Message} (i : Nat)
    (h : List.Forall₂ relMsg l1 l2) :
    (findMessage l1 i = none ∧ findMessage l2 i = none) ∨
    ∃ m1 m2, findMessage l1 i = some m1 ∧ findMessage l2 i = some m2 ∧
      relMsg m1 m2 := by
  unfold findMessage
  apply find?_rel ?_ h
  intro m1 m2 hr
  simp [relMsg_id_eq hr]

theorem unreadFor_respects_rel (cid uid : Nat) (m1 m2 : Message)
    (hr : relMsg m1 m2) : unreadFor cid uid m1 = unreadFor cid uid m2 := by
  simp [unreadFor, relMsg_conversationId_eq hr, relMsg_receiverId_eq hr,
    relMsg_isRead_eq hr]

theorem messageOfUserInConv_respects_rel (cid uid : Nat) (m1 m2 : Message)
    (hr : relMsg m1 m2) :
    messageOfUserInConv cid uid m1 = messageOfUserInConv cid uid m2 := by
  simp [messageOfUserInConv, relMsg_conversationId_eq hr,
    relMsg_senderId_eq hr, relMsg_receiverId_eq hr]

theorem restGetMessages_rel {db1 db2 : DB} (h : relDB db1 db2)
    (uid cid page limit : Nat) :
    restGetMessages db1 uid cid page limit
      = restGetMessages db2 uid cid page limit := by
  obtain ⟨hu, hc, hcon, hni, hnm, hm⟩ := h
  unfold restGetMessages
  rw [hc]
  cases hfc : findConversationById db2.conversations cid with
  | none => rfl
  | some c =>
      dsimp only
      by_cases hguard : c.user1Id ≠ uid ∧ c.user2Id ≠ uid
      · rw [if_pos hguard, if_pos hguard]
      · rw [if_neg hguard, if_neg hguard]
        congr 1
        apply map_eq_of_rel (fun m1 m2 hr => sanitize_eq_of_rel hr)
        apply List.forall₂_take
        apply List.forall₂_drop
        apply sortDesc_rel
        exact forall₂_filter_rel (messageOfUserInConv_respects_rel cid uid)
          hm

theorem unreadCount_rel {db1 db2 : DB} (h : relDB db1 db2)
    (uid cid : Nat) : unreadCount db1 uid cid = unreadCount db2 uid cid := by
  unfold unreadCount
  exact List.Forall₂.length_eq
    (forall₂_filter_rel (unreadFor_respects_rel cid uid) h.2.2.2.2.2)

theorem lastMessageFor_rel {db1 db2 : DB} (h : relDB db1 db2)
    (uid cid : Nat) :
    Option.Rel relMsg (lastMessageFor db1 uid cid)
      (lastMessageFor db2 uid cid) := by
  unfold lastMessageFor
  exact maxById_rel
    (forall₂_filter_rel (messageOfUserInConv_respects_rel cid uid)
      h.2.2.2.2.2)

theorem conversationPreview_rel {db1 db2 : DB} (h : relDB db1 db2)
    (uid : Nat) (c : Conversation) :
    conversationPreview db1 uid c = conversationPreview db2 uid c := by
  have hu : db1.users = db2.users := h.1
  have hcount := unreadCount_rel h uid c.id
  have hlast := lastMessageFor_rel h uid c.id
  unfold conversationPreview
  rw [hu]
  revert hlast
  generalize lastMessageFor db1 uid c.id = o1
  generalize lastMessageFor db2 uid c.id = o2
  intro hlast
  cases hlast with
  | none =>
      dsimp only
      rw [hcount]
  | some hr =>
      rename_i lm1 lm2
      dsimp only
      rw [relMsg_senderId_eq hr, relMsg_receiverId_eq hr, hcount,
        sanitize_eq_of_rel hr]

theorem getConversationsPreviews_rel {db1 db2 : DB} (h : relDB db1 db2)
    (uid : Nat) :
    getConversationsPreviews db1 uid = getConversationsPreviews db2 uid := by
  unfold getConversationsPreviews
  rw [h.2.1]
  apply List.filterMap_congr
  intro c _
  exact conversationPreview_rel h uid c

theorem sendMessage_emissions_rel {db1 db2 : DB} (h : relDB db1 db2)
    (s r : Nat) (content : String) (now : Nat) :
    (handleSendMessage db1 s r content now).2
      = (handleSendMessage db2 s r content now).2 := by
  obtain ⟨hu, hc, hcon, hni, hnm, hm⟩ := h
  by_cases h1 : s = r
  · simp [handleSendMessage, h1]
  · by_cases h2 : r ∈ db1.users
    · have h2' : r ∈ db2.users := by rw [← hu]; exact h2
      cases hfc : findConversationByPair db2.conversations s r with
      | some c =>
          have hfc1 : findConversationByPair db1.conversations s r
              = some c := by rw [hc]; exact hfc
          by_cases hguard : c.user1Id ≠ s ∧ c.user2Id ≠ s
          · simp [handleSendMessage, h1, h2, h2', findOrCreateConversation,
              hfc, hfc1, hguard]
          · by_cases hconn : r ∈ db2.connected
            · have hconn1 : r ∈ db1.connected := by rw [hcon]; exact hconn
              simp [handleSendMessage, h1, h2, h2', findOrCreateConversation,
                hfc, hfc1, hguard, hconn, hconn1, hnm]
            · have hconn1 : r ∉ db1.connected := by rw [hcon]; exact hconn
              simp [handleSendMessage, h1, h2, h2', findOrCreateConversation,
                hfc, hfc1, hguard, hconn, hconn1, hnm]
      | none =>
          have hfc1 : findConversationByPair db1.conversations s r
              = none := by rw [hc]; exact hfc
          by_cases hconn : r ∈ db2.connected
          · have hconn1 : r ∈ db1.connected := by rw [hcon]; exact hconn
            simp [handleSendMessage, h1, h2, h2', findOrCreateConversation,
              hfc, hfc1, hconn, hconn1, hnm, hni]
          · have hconn1 : r ∉ db1.connected := by rw [hcon]; exact hconn
            simp [handleSendMessage, h1, h2, h2', findOrCreateConversation,
              hfc, hfc1, hconn, hconn1, hnm, hni]
    · have h2' : r ∉ db2.users := by rw [← hu]; exact h2
      simp [handleSendMessage, h1, h2, h2']

theorem markAsRead_emissions_rel {db1 db2 : DB} (h : relDB db1 db2)
    (uid : Nat) (data : MarkAsReadData) :
    (handleMarkAsRead db1 uid data).2
      = (handleMarkAsRead db2 uid data).2 := by
  obtain ⟨hu, hc, hcon, hni, hnm, hm⟩ := h
  cases hdata : data.conversationId with
  | some cid =>
      simp only [handleMarkAsRead, hdata]
      rw [markAllLoop_emissions, markAllLoop_emissions]
      apply map_eq_of_rel ?_
        (forall₂_filter_rel (unreadFor_respects_rel cid uid) hm)
      intro m1 m2 hr
      rw [relMsg_senderId_eq hr, relMsg_id_eq hr]
  | none =>
      rcases findMessage_rel data.messageId hm with
        ⟨hn1, hn2⟩ | ⟨m1, m2, hf1, hf2, hr⟩
      · simp [handleMarkAsRead, hdata, hn1, hn2]
      · simp only [handleMarkAsRead, hdata, hf1, hf2]
        have hrecv : m1.receiverId = m2.receiverId :=
          relMsg_receiverId_eq hr
        by_cases hx : m2.receiverId = uid
        · have hx1 : m1.receiverId = uid := by rw [hrecv]; exact hx
          rw [if_neg (not_not_intro hx1), if_neg (not_not_intro hx)]
          rw [relMsg_senderId_eq hr, relMsg_id_eq hr,
            relMsg_conversationId_eq hr]
        · have hx1 : ¬ m1.receiverId = uid := by rw [hrecv]; exact hx
          rw [if_pos hx1, if_pos hx]

theorem typing_emissions_rel {db1 db2 : DB} (h : relDB db1 db2)
    (uid cid : Nat) :
    (handleTyping db1 uid cid).2 = (handleTyping db2 uid cid).2 := by
  obtain ⟨hu, hc, hcon, hni, hnm, hm⟩ := h
  unfold handleTyping
  rw [hc]
  cases hfc : findConversationById db2.conversations cid with
  | none => rfl
  | some c =>
      dsimp only
      by_cases hguard : c.user1Id ≠ uid ∧ c.user2Id ≠ uid
      · rw [if_pos hguard, if_pos hguard]
      · rw [if_neg hguard, if_neg hguard]

theorem relMsg_after_edit {m1 m2 : Message} (hr : relMsg m1 m2)
    (content : String) (now : Nat) :
    relMsg
      { m1 with editHistory := m1.editHistory ++ [⟨m1.content, now⟩]
                content := strTrim content
                isEdited := true
                editedAt := some now }
      { m2 with editHistory := m2.editHistory ++ [⟨m2.content, now⟩]
                content := strTrim content
                isEdited := true
                editedAt := some now } := by
  obtain ⟨h1, h2, h3, h4, h5, h6, h7, h8, h9, h10, h11, h12⟩ := hr
  exact ⟨h1, rfl, h3, h4, h5, h6, h7, h8, h9, rfl, rfl, h12⟩

theorem relMsg_after_delete {m1 m2 : Message} (hr : relMsg m1 m2)
    (now : Nat) :
    relMsg
      { m1 with isDeleted := true, deletedAt := some now
                content := "This message was deleted" }
      { m2 with isDeleted := true, deletedAt := some now
                content := "This message was deleted" } := by
  obtain ⟨h1, h2, h3, h4, h5, h6, h7, h8, h9, h10, h11, h12⟩ := hr
  exact ⟨h1, rfl, h3, h4, h5, h6, h7, rfl, rfl, h10, h11, h12⟩

theorem updateMessage_emissions_rel {db1 db2 : DB} (h : relDB db1 db2)
    (uid mid : Nat) (content : String) (now : Nat) :
    (handleUpdateMessage db1 uid mid content now).2
      = (handleUpdateMessage db2 uid mid content now).2 := by
  obtain ⟨hu, hc, hcon, hni, hnm, hm⟩ := h
  by_cases hcx : strTrim content = ""
  · simp [handleUpdateMessage, hcx]
  · rcases findMessage_rel mid hm with
      ⟨hn1, hn2⟩ | ⟨m1, m2, hf1, hf2, hr⟩
    · simp [handleUpdateMessage, hcx, hn1, hn2]
    · simp only [handleUpdateMessage, hf1, hf2]
      rw [if_neg hcx, if_neg hcx]

      have hs : m1.senderId = m2.senderId := relMsg_senderId_eq hr
      by_cases hsender : m2.senderId = uid
      · have hsender1 : m1.senderId = uid := by rw [hs]; exact hsender
        rw [if_neg (not_not_intro hsender1), if_neg (not_not_intro hsender)]
        have hdel : m1.isDeleted = m2.isDeleted := relMsg_isDeleted_eq hr
        by_cases hd : m2.isDeleted
        · have hd1 : m1.isDeleted = true := by rw [hdel]; exact hd
          rw [if_pos hd1, if_pos hd]
        · have hd1 : ¬ m1.isDeleted = true := by rw [hdel]; exact hd
          rw [if_neg hd1, if_neg hd]
          rw [sanitize_eq_of_rel (relMsg_after_edit hr content now),
            relMsg_receiverId_eq hr]
      · have hsender1 : ¬ m1.senderId = uid := by rw [hs]; exact hsender
        rw [if_pos hsender1, if_pos hsender]

theorem deleteMessage_emissions_rel {db1 db2 : DB} (h : relDB db1 db2)
    (uid mid now : Nat) :
    (handleDeleteMessage db1 uid mid now).2
      = (handleDeleteMessage db2 uid mid now).2 := by
  obtain ⟨hu, hc, hcon, hni, hnm, hm⟩ := h
  rcases findMessage_rel mid hm with
    ⟨hn1, hn2⟩ | ⟨m1, m2, hf1, hf2, hr⟩
  · simp [handleDeleteMessage, hn1, hn2]
  · simp only [handleDeleteMessage, hf1, hf2]

    have hs : m1.senderId = m2.senderId := relMsg_senderId_eq hr
    by_cases hsender : m2.senderId = uid
    · have hsender1 : m1.senderId = uid := by rw [hs]; exact hsender
      rw [if_neg (not_not_intro hsender1), if_neg (not_not_intro hsender)]
      rw [sanitize_eq_of_rel (relMsg_after_delete hr now),
        relMsg_receiverId_eq hr]
    · have hsender1 : ¬ m1.senderId = uid := by rw [hs]; exact hsender
      rw [if_pos hsender1, if_pos hsender]

theorem restUpdateMessage_response_rel {db1 db2 : DB} (h : relDB db1 db2)
    (uid mid : Nat) (content : String) (now : Nat) :
    (restUpdateMessage db1 uid mid content now).2
      = (restUpdateMessage db2 uid mid content now).2 := by
  obtain ⟨hu, hc, hcon, hni, hnm, hm⟩ := h
  by_cases hcx : strTrim content = ""
  · simp [restUpdateMessage, hcx]
  · rcases findMessage_rel mid hm with
      ⟨hn1, hn2⟩ | ⟨m1, m2, hf1, hf2, hr⟩
    · simp [restUpdateMessage, hcx, hn1, hn2]
    · simp only [restUpdateMessage, hf1, hf2]
      rw [if_neg hcx, if_neg hcx]

      have hs : m1.senderId = m2.senderId := relMsg_senderId_eq hr
      by_cases hsender : m2.senderId = uid
      · have hsender1 : m1.senderId = uid := by rw [hs]; exact hsender
        rw [if_neg (not_not_intro hsender1), if_neg (not_not_intro hsender)]
        have hdel : m1.isDeleted = m2.isDeleted := relMsg_isDeleted_eq hr
        by_cases hd : m2.isDeleted
        · have hd1 : m1.isDeleted = true := by rw [hdel]; exact hd
          rw [if_pos hd1, if_pos hd]
        · have hd1 : ¬ m1.isDeleted = true := by rw [hdel]; exact hd
          rw [if_neg hd1, if_neg hd]
          rw [sanitize_eq_of_rel (relMsg_after_edit hr content now)]
      · have hsender1 : ¬ m1.senderId = uid := by rw [hs]; exact hsender
        rw [if_pos hsender1, if_pos hsender]

/-- C9: `getHistory` is the only operation whose output contains
`originalContent` or `editHistory`.  For any two states that differ only in
those backup fields, every other outward-facing message representation is
identical: the REST message list, the conversation previews, the emissions
of all five real-time handlers, and the REST update response.  By
contrast, `getMessageHistory` does distinguish two such states
(`secretDBA` / `secretDBB`). -/
theorem getHistory_only_backup_exposure (db1 db2 : DB)
    (h : relDB db1 db2) :
    (∀ uid cid page limit, restGetMessages db1 uid cid page limit
        = restGetMessages db2 uid cid page limit) ∧
    (∀ uid, getConversationsPreviews db1 uid
        = getConversationsPreviews db2 uid) ∧
    (∀ uid ev now, (handleEvent db1 uid ev now).2
        = (handleEvent db2 uid ev now).2) ∧
    (∀ uid mid content now, (restUpdateMessage db1 uid mid content now).2
        = (restUpdateMessage db2 uid mid content now).2) ∧
    (relDB secretDBA secretDBB ∧
      getMessageHistory secretDBA 1 1 ≠ getMessageHistory secretDBB 1 1) := by
  refine ⟨fun uid cid page limit => restGetMessages_rel h uid cid page limit,
    fun uid => getConversationsPreviews_rel h uid,
    fun uid ev now => ?_,
    fun uid mid content now =>
      restUpdateMessage_response_rel h uid mid content now,
    ⟨rfl, rfl, rfl, rfl, rfl,
      List.Forall₂.cons
        ⟨rfl, rfl, rfl, rfl, rfl, rfl, rfl, rfl, rfl, rfl, rfl, rfl⟩
        List.Forall₂.nil⟩,
    by decide⟩
  cases ev with
  | sendMessage r content => exact sendMessage_emissions_rel h uid r content now
  | markAsRead data => exact markAsRead_emissions_rel h uid data
  | typing cid => exact typing_emissions_rel h uid cid
  | updateMessage mid content =>
      exact updateMessage_emissions_rel h uid mid content now
  | deleteMessage mid => exact deleteMessage_emissions_rel h uid mid now

/-- Witness for `getHistory_only_backup_exposure`: the two secret-differing
sample states are related, and their REST message lists and delete-event
emissions agree. -/
theorem getHistory_only_backup_exposure_witness :
    restGetMessages secretDBA 1 1 1 50 = restGetMessages secretDBB 1 1 1 50 ∧
    (handleEvent secretDBA 1 (.deleteMessage 1) 9).2
      = (handleEvent secretDBB 1 (.deleteMessage 1) 9).2 :=
  ⟨(getHistory_only_backup_exposure secretDBA secretDBB
      ⟨rfl, rfl, rfl, rfl, rfl,
        List.Forall₂.cons
          ⟨rfl, rfl, rfl, rfl, rfl, rfl, rfl, rfl, rfl, rfl, rfl, rfl⟩
          List.Forall₂.nil⟩).1 1 1 1 50,
   (getHistory_only_backup_exposure secretDBA secretDBB
      ⟨rfl, rfl, rfl, rfl, rfl,
        List.Forall₂.cons
          ⟨rfl, rfl, rfl, rfl, rfl, rfl, rfl, rfl, rfl, rfl, rfl, rfl⟩
          List.Forall₂.nil⟩).2.2.1 1 (.deleteMessage 1) 9⟩

end Chat
